import Mathlib

/-!
# Radicle forge adapter for Woodpecker: a shallow embedding of `main.go`

The adapter (`radicle`) is a small mutable record; its methods talk to a remote
Radicle node through `internal.Client`.  The embedding makes three things explicit:

* the adapter record is passed in and returned (Go mutates it through the receiver);
* the remote node is a transition system over an abstract state `σ` (`Remote σ`), and every
  method returns the list of collaborator calls it made, in order (`Call`);
* Go `error` values are the inductive `Error`, `nil` is `none`.

Functions of the repository that live outside `main.go` (`generateHmacSignature`, the two hook
parsers, `convertUser`, `internal.GetLoginURL`), header-name constants and the two library
functions `url.Parse` and `common.GetPipelineStatusURL` are fields of `Deps`.
-/

set_option autoImplicit false
set_option linter.dupNamespace false

namespace RadicleAddon

/-! ## Values -/

/-- Raw request body, as returned by `io.ReadAll`. -/
abbrev Bytes := List (Fin 256)

/-- Go `error` values that the adapter creates or passes on. -/
inductive Error where
  /-- The value `errors.New(s)`. -/
  | errorString (s : String)
  /-- The value `&forgeTypes.ErrIgnoreEvent` with the given `Event` and no `Reason`. -/
  | ErrIgnoreEvent (Event : String)
  /-- Any other error handed back by a collaborator, known by its message. -/
  | external (text : String)
  deriving DecidableEq, Repr

/-- The method `Error()` of an error value. -/
def Error.Error : Error → String
  | .errorString s => s
  | .ErrIgnoreEvent e => "explicit ignored event '" ++ e ++ "', reason: "
  | .external t => t

/-- The adapter: `type radicle struct` (`alias_` is the Go field `alias`). -/
structure radicle where
  url : String
  woodpeckerHostUrl : String
  nodeID : String
  sessionToken : String
  alias_ : String
  hookSecret : String
  deriving DecidableEq, Repr

/-- Startup options: `type radicleOpts struct`. -/
structure radicleOpts where
  URL : String
  WoodpeckerHostURL : String
  HookSecret : String
  deriving DecidableEq, Repr

/-- The fields of `model.User` that `main.go` reads. -/
structure User where
  Login : String
  AccessToken : String
  deriving DecidableEq, Repr

/-- The fields of `model.Repo` that `main.go` reads. -/
structure Repo where
  ForgeRemoteID : String
  Branch : String
  deriving DecidableEq, Repr

/-- The fields of `model.Pipeline` that `main.go` reads; `AdditionalVariables` is a Go
`map[string]string`, kept as an association list. -/
structure Pipeline where
  ID : Int
  Status : String
  Commit : String
  AdditionalVariables : List (String × String)
  deriving DecidableEq, Repr

/-- The request value `forgeTypes.OAuthRequest`; only `Code` is read. -/
structure OAuthRequest where
  Code : String
  deriving DecidableEq, Repr

/-- The node identity answer; `ConfigID` stands for `nodeInfo.Config.ID`. -/
structure NodeInfo where
  ConfigID : String
  deriving DecidableEq, Repr

/-- The session answer of the node. -/
structure SessionInfo where
  Status : String
  Alias : String
  deriving DecidableEq, Repr

/-- The value `internal.CreatePatchComment` (`Type_` is the Go field `Type`). -/
structure CreatePatchComment where
  Type_ : String
  Body : String
  Revision : String
  deriving DecidableEq, Repr

/-- The value `internal.RepoWebhook`, with the fields `Activate` fills in. -/
structure RepoWebhook where
  RepoID : String
  URL : String
  Secret : String
  ContentType : String
  deriving DecidableEq, Repr

/-- A client bound to a node URL and a token: `internal.NewClient(ctx, url, token)`. -/
structure Client where
  url : String
  token : String
  deriving DecidableEq, Repr

/-- Go `http.Header`: header name to list of values. -/
abbrev Header := List (String × List String)

/-- The method `Header.Get`: first value stored under `key`, or `""` when there is none.
The store is keyed by the names the adapter asks for. -/
def Header.Get (h : Header) (key : String) : String :=
  match h.lookup key with
  | some (v :: _) => v
  | _ => ""

/-- An inbound `*http.Request`: the outcome of `io.ReadAll(r.Body)` and the headers. -/
structure Request where
  Body : Except Error Bytes
  Header : Header

/-- What `Hook` and the two parsers return: `(repo, pipeline, err)`. -/
abbrev HookResult := Option Repo × Option Pipeline × Option Error

/-! ## Constants -/

/-- Modelled from the spec: `internal.EventTypePush`, the event-type label `"push"`
(the constant is declared in package `internal`, outside `main.go`). -/
def EventTypePush : String := "push"

/-- Modelled from the spec: `internal.EventTypePatch`, the event-type label `"patch"`
(the constant is declared in package `internal`, outside `main.go`). -/
def EventTypePatch : String := "patch"

/-- Modelled from the spec: `internal.SessionStatusAuthorized`, the explicit `"authorized"`
status value (the constant is declared in package `internal`, outside `main.go`). -/
def SessionStatusAuthorized : String := "authorized"

/-- The constant `model.StatusSkipped` of the Woodpecker model. -/
def StatusSkipped : String := "skipped"
/-- The constant `model.StatusPending` of the Woodpecker model. -/
def StatusPending : String := "pending"
/-- The constant `model.StatusRunning` of the Woodpecker model. -/
def StatusRunning : String := "running"
/-- The constant `model.StatusSuccess` of the Woodpecker model. -/
def StatusSuccess : String := "success"
/-- The constant `model.StatusFailure` of the Woodpecker model. -/
def StatusFailure : String := "failure"
/-- The constant `model.StatusKilled` of the Woodpecker model. -/
def StatusKilled : String := "killed"
/-- The constant `model.StatusError` of the Woodpecker model. -/
def StatusError : String := "error"
/-- The constant `model.StatusDeclined` of the Woodpecker model. -/
def StatusDeclined : String := "declined"

/-! ## Collaborators -/

/-- Pure collaborators of `main.go` that are declared elsewhere. -/
structure Deps where
  /-- The constant `internal.SignatureHashKey`. -/
  SignatureHashKey : String
  /-- The constant `internal.EventTypeHeaderKey`. -/
  EventTypeHeaderKey : String
  /-- The constant `internal.CreatePatchCommentType`. -/
  CreatePatchCommentType : String
  /-- The function `internal.GetLoginURL(url, woodpeckerHostUrl)`. -/
  GetLoginURL : String → String → String
  /-- The function `generateHmacSignature(secret, payload)`. -/
  generateHmacSignature : String → Bytes → String
  /-- The method `rad.parsePushHook(payload)`. -/
  parsePushHook : radicle → Bytes → HookResult
  /-- The method `rad.parsePatchHook(payload)`. -/
  parsePatchHook : radicle → Bytes → HookResult
  /-- The function `convertUser(rad)`. -/
  convertUser : radicle → User
  /-- The error result of `url.Parse(s)`. -/
  urlParse : String → Option Error
  /-- The function `common.GetPipelineStatusURL(r, b, nil)`. -/
  GetPipelineStatusURL : Repo → Pipeline → String

/-- The remote node behind `internal.Client`, as transitions of an abstract node state. -/
structure Remote (σ : Type) where
  GetNodeInfo : Client → σ → Except Error NodeInfo × σ
  GetSessionInfo : Client → σ → Except Error SessionInfo × σ
  AddProjectPatchComment : Client → String → String → CreatePatchComment → σ → Option Error × σ
  GetProjectWebhook : Client → String → String → σ → (Option RepoWebhook × Option Error) × σ
  RemoveProjectWebhook : Client → String → Option RepoWebhook → σ → Option Error × σ

/-- One collaborator call, as recorded in a method's trace. -/
inductive Call where
  | GetNodeInfo (c : Client)
  | GetSessionInfo (c : Client)
  | AddProjectPatchComment (c : Client) (repoID patchID : String) (comment : CreatePatchComment)
  | GetProjectWebhook (c : Client) (repoID link : String)
  | RemoveProjectWebhook (c : Client) (repoID : String) (hook : Option RepoWebhook)
  | parsePushHook (payload : Bytes)
  | parsePatchHook (payload : Bytes)
  deriving DecidableEq, Repr

/-! ## `Hook` -/

/-- The method `radicle.Hook`: the `(repo, pipeline, err)` triple and the parser calls made. -/
def Hook (d : Deps) (rad : radicle) (r : Request) : HookResult × List Call :=
  match r.Body with
  | .error err => ((none, none, some err), [])
  | .ok payload =>
    if rad.hookSecret.length > 0 ∧
        r.Header.Get d.SignatureHashKey ≠ d.generateHmacSignature rad.hookSecret payload then
      ((none, none, some (.errorString "invalid hook message signature")), [])
    else
      let hookType := r.Header.Get d.EventTypeHeaderKey
      if hookType = EventTypePush then
        (d.parsePushHook rad payload, [.parsePushHook payload])
      else if hookType = EventTypePatch then
        (d.parsePatchHook rad payload, [.parsePatchHook payload])
      else
        ((none, none, some (.ErrIgnoreEvent hookType)), [])

/-! ## `newRadicle` -/

/-- Go `strings.HasSuffix`. -/
def HasSuffix (s suffix : String) : Bool :=
  suffix.data.isSuffixOf s.data

/-- Go `strings.TrimSuffix`: `s` without the trailing `suffix`, or `s` itself when it does not
end with `suffix`. -/
def TrimSuffix (s suffix : String) : String :=
  if HasSuffix s suffix then ⟨s.data.take (s.data.length - suffix.data.length)⟩ else s

/-- The constructor `newRadicle`: `.ok rad` for `(&rad, nil)`, `.error err` for `(nil, err)`. -/
def newRadicle (d : Deps) (opts : radicleOpts) : Except Error radicle :=
  let rad : radicle :=
    { url := opts.URL, woodpeckerHostUrl := opts.WoodpeckerHostURL, nodeID := "",
      sessionToken := "", alias_ := "", hookSecret := opts.HookSecret }
  let rad := { rad with url := TrimSuffix rad.url "/" }
  if rad.url.length = 0 then
    .error (.errorString "must provide a value for RADICLE_URL")
  else
    match d.urlParse rad.url with
    | some err =>
      .error (.errorString ("must provide a valid RADICLE_URL value: " ++ err.Error))
    | none =>
      let rad := { rad with woodpeckerHostUrl := TrimSuffix rad.woodpeckerHostUrl "/" }
      if rad.url.length = 0 then
        .error (.errorString "must provide a value for WOODPECKER_HOST_URL")
      else
        match d.urlParse rad.woodpeckerHostUrl with
        | some err =>
          .error (.errorString ("must provide a valid WOODPECKER_HOST_URL value: " ++ err.Error))
        | none => .ok rad

/-! ## `Login` -/

/-- What a method leaves behind: its return value, the adapter record, the node state and the
collaborator calls it made, oldest first. -/
structure Outcome (ρ σ : Type) where
  result : ρ
  rad : radicle
  node : σ
  calls : List Call

/-- The method `radicle.Login`; the result is `(user, loginURL, err)`. -/
def Login {σ : Type} (d : Deps) (n : Remote σ) (rad : radicle) (req : Option OAuthRequest)
    (w : σ) : Outcome (Option User × String × Option Error) σ :=
  let loginURL := d.GetLoginURL rad.url rad.woodpeckerHostUrl
  let rad := { rad with sessionToken := "" }
  match req with
  | none => ⟨(none, loginURL, none), rad, w, []⟩
  | some req =>
    let c1 : Client := ⟨rad.url, rad.sessionToken⟩
    match n.GetNodeInfo c1 w with
    | (.error err, w1) =>
      ⟨(none, loginURL, some err), { rad with sessionToken := "" }, w1, [.GetNodeInfo c1]⟩
    | (.ok nodeInfo, w1) =>
      let rad := if req.Code.length > 0 then { rad with sessionToken := req.Code } else rad
      if rad.sessionToken.length = 0 then
        ⟨(none, loginURL, none), rad, w1, [.GetNodeInfo c1]⟩
      else
        let c2 : Client := ⟨rad.url, rad.sessionToken⟩
        match n.GetSessionInfo c2 w1 with
        | (.error err, w2) =>
          ⟨(none, loginURL, some err), { rad with sessionToken := "" }, w2,
            [.GetNodeInfo c1, .GetSessionInfo c2]⟩
        | (.ok sessionInfo, w2) =>
          if sessionInfo.Status ≠ SessionStatusAuthorized then
            ⟨(none, loginURL, some (.errorString "provided secret token is unauthorized")),
              { rad with sessionToken := "" }, w2, [.GetNodeInfo c1, .GetSessionInfo c2]⟩
          else
            let rad := { rad with nodeID := nodeInfo.ConfigID, alias_ := sessionInfo.Alias }
            ⟨(some (d.convertUser rad), loginURL, none), rad, w2,
              [.GetNodeInfo c1, .GetSessionInfo c2]⟩

/-! ## `Status` -/

/-- An operand of `fmt.Sprintf`: the adapter passes an `int64` and strings. -/
inductive Arg where
  | int (i : Int)
  | str (s : String)
  deriving DecidableEq, Repr

/-- How the verbs `%v` and `%s` print an operand the adapter passes. -/
def Arg.format : Arg → String
  | .int i => toString i
  | .str s => s

/-- The scan of `fmt.Sprintf` over the format, for the verbs `%v` and `%s`: a verb is replaced
by the next operand, any other character is copied. -/
def SprintfChars : List Char → List Arg → List Char
  | [], _ => []
  | [c], _ => [c]
  | c :: v :: fmt, args =>
    if c = '%' ∧ (v = 'v' ∨ v = 's') then
      match args with
      | a :: more => a.format.data ++ SprintfChars fmt more
      | [] => '%' :: '!' :: v :: "(MISSING)".data ++ SprintfChars fmt []
    else c :: SprintfChars (v :: fmt) args

/-- Go `fmt.Sprintf(format, args...)`. -/
def Sprintf (format : String) (args : List Arg) : String :=
  ⟨SprintfChars format.data args⟩

/-- Go `strings.Contains(s, sub)`, as a proposition: `sub` is a contiguous part of `s`. -/
def Contains (s sub : String) : Prop :=
  sub.data <:+: s.data

/-- The method `radicle.Status`; the result is the returned `error`. -/
def Status {σ : Type} (d : Deps) (n : Remote σ) (rad : radicle) (u : User) (r : Repo)
    (b : Pipeline) (w : σ) : Outcome (Option Error) σ :=
  if b.Status = StatusPending ∨ b.Status = StatusRunning then
    ⟨none, rad, w, []⟩
  else
    match b.AdditionalVariables.lookup "patch_id",
        b.AdditionalVariables.lookup "revision_id" with
    | some patchID, some revisionID =>
      let iconAndCompleted : String × Bool :=
        if b.Status = StatusFailure ∨ b.Status = StatusKilled ∨ b.Status = StatusError ∨
            b.Status = StatusDeclined then
          ("❌", true)
        else if b.Status = StatusSuccess then
          ("✅", true)
        else if b.Status = StatusSkipped then
          ("↪️", false)
        else
          ("⏳", false)
      let statusIcon := iconAndCompleted.1
      let pipelineCompleted := iconAndCompleted.2
      let statusText := if pipelineCompleted then "completed with" else "current"
      let radicleComment : CreatePatchComment :=
        { Type_ := d.CreatePatchCommentType
          Body := Sprintf "Woodpecker pipeline #%v %s status: %s. %s \n - Details: %s"
            [.int b.ID, .str statusText, .str b.Status, .str statusIcon,
              .str (d.GetPipelineStatusURL r b)]
          Revision := revisionID }
      let client : Client := ⟨rad.url, u.AccessToken⟩
      let post := n.AddProjectPatchComment client r.ForgeRemoteID patchID radicleComment w
      ⟨post.1, rad, post.2,
        [.AddProjectPatchComment client r.ForgeRemoteID patchID radicleComment]⟩
    | _, _ => ⟨none, rad, w, []⟩

/-! ## `Deactivate` -/

/-- The method `radicle.Deactivate`; the result is the returned `error`. -/
def Deactivate {σ : Type} (n : Remote σ) (rad : radicle) (u : User) (r : Repo) (link : String)
    (w : σ) : Outcome (Option Error) σ :=
  let client : Client := ⟨rad.url, u.AccessToken⟩
  let found := n.GetProjectWebhook client r.ForgeRemoteID link w
  let hook := found.1.1
  let removed := n.RemoveProjectWebhook client r.ForgeRemoteID hook found.2
  let calls : List Call :=
    [.GetProjectWebhook client r.ForgeRemoteID link,
      .RemoveProjectWebhook client r.ForgeRemoteID hook]
  match removed.1 with
  | some err =>
    ⟨some (.errorString ("could not deactivate repository, " ++ err.Error)), rad, removed.2,
      calls⟩
  | none => ⟨none, rad, removed.2, calls⟩

/-! ## Sample collaborators for the closed examples -/

/-- Sample pure collaborators.  The parsers answer with a fixed repository and pipeline, the
signature of a body is the secret followed by `"-signed"`, and `url.Parse` accepts its input,
as Go does for the URLs used in the examples. -/
def exampleDeps : Deps where
  SignatureHashKey := "X-Radicle-Signature"
  EventTypeHeaderKey := "X-Radicle-Event-Type"
  CreatePatchCommentType := "revision.comment"
  GetLoginURL := fun url host => url ++ "/login?callback=" ++ host
  generateHmacSignature := fun secret _ => secret ++ "-signed"
  parsePushHook := fun _ _ => (some ⟨"rad:z1", "main"⟩, some ⟨1, "pending", "c0ffee", []⟩, none)
  parsePatchHook := fun _ _ => (none, none, some (.external "unexpected end of JSON input"))
  convertUser := fun rad => ⟨rad.alias_, rad.sessionToken⟩
  urlParse := fun _ => none
  GetPipelineStatusURL := fun _ _ => "https://ci.example/repos/1/pipeline/7"

/-- A sample adapter with a hook secret and no session. -/
def exampleRad : radicle :=
  ⟨"https://node.example", "https://ci.example", "", "", "", "s3cret"⟩

/-- A sample node, whose state counts the calls it served: the identity check succeeds, every
session is reported as `"pending"`, comments are accepted, no webhook is registered and removal
of an absent webhook succeeds. -/
def exampleRemote : Remote Nat where
  GetNodeInfo := fun _ k => (.ok ⟨"z6Mk"⟩, k + 1)
  GetSessionInfo := fun _ k => (.ok ⟨"pending", "alice"⟩, k + 1)
  AddProjectPatchComment := fun _ _ _ _ k => (none, k + 1)
  GetProjectWebhook := fun _ _ _ k => ((none, some (.external "webhook not found")), k + 1)
  RemoveProjectWebhook := fun _ _ hook k =>
    match hook with
    | none => (none, k)
    | some _ => (some (.external "remote refused"), k + 1)

/-- A sample node whose identity check fails. -/
def exampleDownRemote : Remote Nat :=
  { exampleRemote with GetNodeInfo := fun _ k => (.error (.external "connection refused"), k + 1) }

/-! ## Auxiliary facts -/

theorem length_eq_zero_iff (s : String) : s.length = 0 ↔ s = "" := by
  cases s with
  | mk l =>
    cases l with
    | nil => exact ⟨fun _ => rfl, fun _ => rfl⟩
    | cons c cs =>
      constructor
      · intro hlen
        simp [String.length] at hlen
      · intro heq
        have hdata := congrArg String.data heq
        simp at hdata

theorem length_pos_iff (s : String) : s.length > 0 ↔ s ≠ "" := by
  have hzero := length_eq_zero_iff s
  constructor
  · intro hpos heq
    have := hzero.mpr heq
    omega
  · intro hne
    by_contra hpos
    exact hne (hzero.mp (by omega))

/-! ## `Hook`: signature check and dispatch -/

/-- C1: on a delivery whose body was read, `Hook` answers with the error "invalid hook message
signature", no repository, no pipeline and no parser call exactly when the secret is non-empty
and the signature header differs from `generateHmacSignature(secret, body)`.  Hence a matching
header is never rejected, a non-empty secret with an empty header is rejected whenever the
generated signature is non-empty, and an empty secret never rejects. -/
theorem Hook_rejects_iff_signature_mismatch (d : Deps) (rad : radicle) (payload : Bytes)
    (h : Header) :
    (Hook d rad ⟨.ok payload, h⟩ =
        ((none, none, some (.errorString "invalid hook message signature")), [])
      ↔ (rad.hookSecret ≠ "" ∧
          h.Get d.SignatureHashKey ≠ d.generateHmacSignature rad.hookSecret payload))
    ∧ (h.Get d.SignatureHashKey = d.generateHmacSignature rad.hookSecret payload →
        Hook d rad ⟨.ok payload, h⟩ ≠
          ((none, none, some (.errorString "invalid hook message signature")), []))
    ∧ (rad.hookSecret ≠ "" → h.Get d.SignatureHashKey = "" →
        d.generateHmacSignature rad.hookSecret payload ≠ "" →
        Hook d rad ⟨.ok payload, h⟩ =
          ((none, none, some (.errorString "invalid hook message signature")), []))
    ∧ (rad.hookSecret = "" →
        Hook d rad ⟨.ok payload, h⟩ ≠
          ((none, none, some (.errorString "invalid hook message signature")), [])) := by
  have key : Hook d rad ⟨.ok payload, h⟩ =
        ((none, none, some (.errorString "invalid hook message signature")), [])
      ↔ (rad.hookSecret ≠ "" ∧
          h.Get d.SignatureHashKey ≠ d.generateHmacSignature rad.hookSecret payload) := by
    rw [← length_pos_iff]
    constructor
    · intro hrej
      by_contra hcond
      simp only [Hook, if_neg hcond] at hrej
      split_ifs at hrej <;> simp at hrej
    · intro hcond
      simp only [Hook, if_pos hcond]
  refine ⟨key, ?_, ?_, ?_⟩
  · intro hsig hrej
    exact (key.mp hrej).2 hsig
  · intro hsecret hempty hgen
    exact key.mpr ⟨hsecret, by rw [hempty]; exact fun e => hgen e.symm⟩
  · intro hsecret hrej
    exact (key.mp hrej).1 hsecret

/-- C1, at sample deliveries: with the secret `"s3cret"` a delivery without signature header is
rejected, and without a secret a wrongly signed delivery is not. -/
theorem Hook_rejects_iff_signature_mismatch_witness :
    Hook exampleDeps exampleRad ⟨.ok [1, 2], [("X-Radicle-Event-Type", ["push"])]⟩ =
        ((none, none, some (.errorString "invalid hook message signature")), [])
    ∧ Hook exampleDeps { exampleRad with hookSecret := "" }
          ⟨.ok [1, 2], [("X-Radicle-Signature", ["bogus"])]⟩ ≠
        ((none, none, some (.errorString "invalid hook message signature")), []) :=
  ⟨(Hook_rejects_iff_signature_mismatch exampleDeps exampleRad [1, 2]
      [("X-Radicle-Event-Type", ["push"])]).2.2.1 (by decide) (by decide) (by decide),
   (Hook_rejects_iff_signature_mismatch exampleDeps { exampleRad with hookSecret := "" } [1, 2]
      [("X-Radicle-Signature", ["bogus"])]).2.2.2 (by decide)⟩

/-- C2: once the signature check is passed or skipped, `Hook` looks at the event-type header
only: the push label gives exactly the answer of `parsePushHook` on the body, the patch label
exactly the answer of `parsePatchHook`, and every other label, the empty one included, gives no
repository, no pipeline and `ErrIgnoreEvent` carrying that label, with no parser called, which
is neither the signature error nor a parse result. -/
theorem Hook_dispatches_on_event_type (d : Deps) (rad : radicle) (payload : Bytes) (h : Header)
    (hpass : rad.hookSecret = "" ∨
      h.Get d.SignatureHashKey = d.generateHmacSignature rad.hookSecret payload) :
    (h.Get d.EventTypeHeaderKey = EventTypePush →
        Hook d rad ⟨.ok payload, h⟩ = (d.parsePushHook rad payload, [.parsePushHook payload]))
    ∧ (h.Get d.EventTypeHeaderKey = EventTypePatch →
        Hook d rad ⟨.ok payload, h⟩ = (d.parsePatchHook rad payload, [.parsePatchHook payload]))
    ∧ (h.Get d.EventTypeHeaderKey ≠ EventTypePush → h.Get d.EventTypeHeaderKey ≠ EventTypePatch →
        Hook d rad ⟨.ok payload, h⟩ =
            ((none, none, some (.ErrIgnoreEvent (h.Get d.EventTypeHeaderKey))), [])
          ∧ Error.ErrIgnoreEvent (h.Get d.EventTypeHeaderKey) ≠
            .errorString "invalid hook message signature")
    ∧ ("" ≠ EventTypePush ∧ "" ≠ EventTypePatch) := by
  have hcond : ¬ (rad.hookSecret.length > 0 ∧
      h.Get d.SignatureHashKey ≠ d.generateHmacSignature rad.hookSecret payload) := by
    rw [length_pos_iff]
    rintro ⟨h1, h2⟩
    rcases hpass with hs | hs
    · exact h1 hs
    · exact h2 hs
  refine ⟨?_, ?_, ?_, by decide⟩
  · intro hpush
    simp only [Hook, if_neg hcond, if_pos hpush]
  · intro hpatch
    have hne : h.Get d.EventTypeHeaderKey ≠ EventTypePush := by
      rw [hpatch]; decide
    simp only [Hook, if_neg hcond, if_neg hne, if_pos hpatch]
  · intro hne1 hne2
    refine ⟨?_, by simp⟩
    simp only [Hook, if_neg hcond, if_neg hne1, if_neg hne2]

/-- C2, at a correctly signed sample delivery with the label `"tag"`: the outcome is the
ignore-event value carrying `"tag"`. -/
theorem Hook_dispatches_on_event_type_witness :
    Hook exampleDeps exampleRad
        ⟨.ok [1, 2], [("X-Radicle-Signature", ["s3cret-signed"]),
          ("X-Radicle-Event-Type", ["tag"])]⟩ =
      ((none, none, some (.ErrIgnoreEvent "tag")), []) :=
  ((Hook_dispatches_on_event_type exampleDeps exampleRad [1, 2]
      [("X-Radicle-Signature", ["s3cret-signed"]), ("X-Radicle-Event-Type", ["tag"])]
      (Or.inr (by decide))).2.2.1 (by decide) (by decide)).1

/-! ## `Login` -/

/-- The login URL is the second component of every answer of `Login`. -/
theorem Login_loginURL {σ : Type} (d : Deps) (n : Remote σ) (rad : radicle)
    (req : Option OAuthRequest) (w : σ) :
    (Login d n rad req w).result.2.1 = d.GetLoginURL rad.url rad.woodpeckerHostUrl := by
  cases req with
  | none => rfl
  | some r =>
    rcases hnode : n.GetNodeInfo ⟨rad.url, ""⟩ w with ⟨res, w1⟩
    cases res with
    | error e => simp [Login, hnode]
    | ok nodeInfo =>
      by_cases hcode : r.Code = ""
      · simp [Login, hnode, hcode]
      · have hlen : r.Code.length > 0 := (length_pos_iff _).mpr hcode
        have hlen0 : ¬ r.Code.length = 0 := by omega
        rcases hsess : n.GetSessionInfo ⟨rad.url, r.Code⟩ w1 with ⟨res2, w2⟩
        cases res2 with
        | error e => simp [Login, hnode, hlen, hlen0, hsess]
        | ok sessionInfo =>
          by_cases hst : sessionInfo.Status = SessionStatusAuthorized
          · simp [Login, hnode, hlen, hlen0, hsess, hst]
          · simp [Login, hnode, hlen, hlen0, hsess, hst]

/-- No user is returned by `Login` unless the session lookup said "authorized". -/
theorem Login_user_only_if_authorized {σ : Type} (d : Deps) (n : Remote σ) (rad : radicle)
    (req : Option OAuthRequest) (w : σ) (u : User)
    (huser : (Login d n rad req w).result.1 = some u) :
    ∃ r nodeInfo w1 sessionInfo w2, req = some r ∧ r.Code ≠ "" ∧
      n.GetNodeInfo ⟨rad.url, ""⟩ w = (.ok nodeInfo, w1) ∧
      n.GetSessionInfo ⟨rad.url, r.Code⟩ w1 = (.ok sessionInfo, w2) ∧
      sessionInfo.Status = SessionStatusAuthorized := by
  cases req with
  | none => simp [Login] at huser
  | some r =>
    rcases hnode : n.GetNodeInfo ⟨rad.url, ""⟩ w with ⟨res, w1⟩
    cases res with
    | error e => simp [Login, hnode] at huser
    | ok nodeInfo =>
      by_cases hcode : r.Code = ""
      · simp [Login, hnode, hcode] at huser
      · have hlen : r.Code.length > 0 := (length_pos_iff _).mpr hcode
        have hlen0 : ¬ r.Code.length = 0 := by omega
        rcases hsess : n.GetSessionInfo ⟨rad.url, r.Code⟩ w1 with ⟨res2, w2⟩
        cases res2 with
        | error e => simp [Login, hnode, hlen, hlen0, hsess] at huser
        | ok sessionInfo =>
          by_cases hst : sessionInfo.Status = SessionStatusAuthorized
          · exact ⟨r, nodeInfo, w1, sessionInfo, w2, rfl, hcode, rfl, hsess, hst⟩
          · simp [Login, hnode, hlen, hlen0, hsess, hst] at huser

/-- C7: whatever the request and whatever the node answers, the second value `Login` returns is
`GetLoginURL` of the configured node URL and CI-server URL; two calls on adapters with the same
two URLs therefore return the same login URL, on any node, for any request. -/
theorem Login_always_returns_login_url {σ τ : Type} (d : Deps) (n : Remote σ) (rad : radicle)
    (req : Option OAuthRequest) (w : σ) :
    (Login d n rad req w).result.2.1 = d.GetLoginURL rad.url rad.woodpeckerHostUrl
    ∧ ∀ (n2 : Remote τ) (rad2 : radicle) (req2 : Option OAuthRequest) (w2 : τ),
        rad2.url = rad.url → rad2.woodpeckerHostUrl = rad.woodpeckerHostUrl →
        (Login d n2 rad2 req2 w2).result.2.1 = (Login d n rad req w).result.2.1 := by
  refine ⟨Login_loginURL d n rad req w, ?_⟩
  intro n2 rad2 req2 w2 hurl hhost
  rw [Login_loginURL, Login_loginURL, hurl, hhost]

/-- C7, at a sample adapter: a nil request on a reachable node and a request with a code on an
unreachable node get the same login URL. -/
theorem Login_always_returns_login_url_witness :
    (Login exampleDeps exampleDownRemote exampleRad (some ⟨"t0ken"⟩) 0).result.2.1 =
      (Login exampleDeps exampleRemote exampleRad none 0).result.2.1 :=
  (Login_always_returns_login_url exampleDeps exampleRemote exampleRad none 0).2
    exampleDownRemote exampleRad (some ⟨"t0ken"⟩) 0 rfl rfl

/-- C4: when a non-empty code is supplied, the identity fetch and the session fetch succeed and
the reported status is not the authorized value, `Login` returns no user, the login URL and the
error "provided secret token is unauthorized", leaves the session token empty and keeps the
recorded node identity and alias; and whenever `Login` does return a user, the session fetch
reported exactly the authorized value. -/
theorem Login_rejects_non_authorized_status {σ : Type} (d : Deps) (n : Remote σ) (rad : radicle)
    (req : OAuthRequest) (w w1 w2 : σ) (nodeInfo : NodeInfo) (sessionInfo : SessionInfo)
    (hcode : req.Code ≠ "")
    (hnode : n.GetNodeInfo ⟨rad.url, ""⟩ w = (.ok nodeInfo, w1))
    (hsess : n.GetSessionInfo ⟨rad.url, req.Code⟩ w1 = (.ok sessionInfo, w2))
    (hstatus : sessionInfo.Status ≠ SessionStatusAuthorized) :
    (Login d n rad (some req) w).result =
        (none, d.GetLoginURL rad.url rad.woodpeckerHostUrl,
          some (.errorString "provided secret token is unauthorized"))
    ∧ (Login d n rad (some req) w).rad.sessionToken = ""
    ∧ (Login d n rad (some req) w).rad.nodeID = rad.nodeID
    ∧ (Login d n rad (some req) w).rad.alias_ = rad.alias_
    ∧ (∀ (req0 : Option OAuthRequest) (w0 : σ) (u : User),
        (Login d n rad req0 w0).result.1 = some u →
        ∃ r ni s1 si s2, req0 = some r ∧ n.GetNodeInfo ⟨rad.url, ""⟩ w0 = (.ok ni, s1) ∧
          n.GetSessionInfo ⟨rad.url, r.Code⟩ s1 = (.ok si, s2) ∧
          si.Status = SessionStatusAuthorized) := by
  have hlen : req.Code.length > 0 := (length_pos_iff _).mpr hcode
  have hlen0 : ¬ req.Code.length = 0 := by omega
  refine ⟨?_, ?_, ?_, ?_, ?_⟩
  · simp [Login, hnode, hlen, hlen0, hsess, hstatus]
  · simp [Login, hnode, hlen, hlen0, hsess, hstatus]
  · simp [Login, hnode, hlen, hlen0, hsess, hstatus]
  · simp [Login, hnode, hlen, hlen0, hsess, hstatus]
  · intro req0 w0 u huser
    obtain ⟨r, ni, s1, si, s2, h1, _, h3, h4, h5⟩ :=
      Login_user_only_if_authorized d n rad req0 w0 u huser
    exact ⟨r, ni, s1, si, s2, h1, h3, h4, h5⟩

/-- C4, at the sample node, which reports every session as `"pending"`. -/
theorem Login_rejects_non_authorized_status_witness :
    (Login exampleDeps exampleRemote exampleRad (some ⟨"t0ken"⟩) 0).result =
        (none, "https://node.example/login?callback=https://ci.example",
          some (.errorString "provided secret token is unauthorized"))
    ∧ (Login exampleDeps exampleRemote exampleRad (some ⟨"t0ken"⟩) 0).rad.sessionToken = "" :=
  have h := Login_rejects_non_authorized_status exampleDeps exampleRemote exampleRad ⟨"t0ken"⟩
    0 1 2 ⟨"z6Mk"⟩ ⟨"pending", "alice"⟩ (by decide) rfl rfl (by decide)
  ⟨h.1, h.2.1⟩

/-- C8: a `Login` call without a code (a nil request, or a request whose code is empty) on an
adapter without session returns no user and the login URL, leaves the adapter record as it was
(empty token, same node identity and alias) and never queries the session endpoint; it returns
an error exactly when the request is non-nil and the identity check failed, and then that very
error. -/
theorem Login_without_code_has_no_effect {σ : Type} (d : Deps) (n : Remote σ) (rad : radicle)
    (req : Option OAuthRequest) (w : σ)
    (hsession : rad.sessionToken = "")
    (hcode : ∀ r, req = some r → r.Code = "") :
    (Login d n rad req w).result.1 = none
    ∧ (Login d n rad req w).result.2.1 = d.GetLoginURL rad.url rad.woodpeckerHostUrl
    ∧ (Login d n rad req w).rad = rad
    ∧ (∀ c, Call.GetSessionInfo c ∉ (Login d n rad req w).calls)
    ∧ (req = none → (Login d n rad req w).result.2.2 = none ∧ (Login d n rad req w).calls = [])
    ∧ (∀ r ni w1, req = some r → n.GetNodeInfo ⟨rad.url, ""⟩ w = (.ok ni, w1) →
        (Login d n rad req w).result.2.2 = none)
    ∧ (∀ r e w1, req = some r → n.GetNodeInfo ⟨rad.url, ""⟩ w = (.error e, w1) →
        (Login d n rad req w).result.2.2 = some e) := by
  have hrad : { rad with sessionToken := "" } = rad := by
    cases rad; simp_all
  cases req with
  | none =>
    simp [Login, hrad]
  | some r =>
    have hc : r.Code = "" := hcode r rfl
    rcases hnode : n.GetNodeInfo ⟨rad.url, ""⟩ w with ⟨res, w1⟩
    cases res with
    | error e => simp [Login, hnode, hrad]
    | ok ni =>
      have hzero : rad.sessionToken.length = 0 := by rw [hsession]; rfl
      simp [Login, hnode, hc, hrad, hzero]

/-- C8, at the sample adapter: a request with an empty code on an unreachable node returns the
node's own error, and a nil request returns none. -/
theorem Login_without_code_has_no_effect_witness :
    (Login exampleDeps exampleDownRemote exampleRad (some ⟨""⟩) 0).result.2.2 =
        some (.external "connection refused")
    ∧ (Login exampleDeps exampleDownRemote exampleRad none 0).result.2.2 = none :=
  ⟨(Login_without_code_has_no_effect exampleDeps exampleDownRemote exampleRad (some ⟨""⟩) 0 rfl
      (by intro r hr; cases hr; rfl)).2.2.2.2.2.2 ⟨""⟩ (.external "connection refused") 1 rfl rfl,
   ((Login_without_code_has_no_effect exampleDeps exampleDownRemote exampleRad none 0 rfl
      (by intro r hr; cases hr)).2.2.2.2.1 rfl).1⟩

/-! ## `Status` -/

/-- What the format of the comment prints, piece by piece. -/
theorem Sprintf_comment (i : Int) (text status icon url : String) :
    Sprintf "Woodpecker pipeline #%v %s status: %s. %s \n - Details: %s"
        [.int i, .str text, .str status, .str icon, .str url] =
      "Woodpecker pipeline #" ++ toString i ++ " " ++ text ++ " status: " ++ status ++ ". " ++
        icon ++ " \n - Details: " ++ url := by
  apply String.ext
  simp [Sprintf, SprintfChars, Arg.format]

/-- No call and no error from `Status` for a pipeline in progress and for one without both
identifiers. -/
theorem Status_silent {σ : Type} (d : Deps) (n : Remote σ) (rad : radicle) (u : User) (r : Repo)
    (b : Pipeline) (w : σ)
    (h : b.Status = StatusPending ∨ b.Status = StatusRunning ∨
      b.AdditionalVariables.lookup "patch_id" = none ∨
      b.AdditionalVariables.lookup "revision_id" = none) :
    Status d n rad u r b w = ⟨none, rad, w, []⟩ := by
  by_cases hprog : b.Status = StatusPending ∨ b.Status = StatusRunning
  · simp only [Status, if_pos hprog]
  · simp only [Status, if_neg hprog]
    split
    · rename_i p rv hp hrv
      rcases h with h | h | h | h
      · exact absurd (Or.inl h) hprog
      · exact absurd (Or.inr h) hprog
      · rw [h] at hp; cases hp
      · rw [h] at hrv; cases hrv
    · rfl

/-- The comment `Status` posts for a finished pipeline that carries both identifiers, with the
icon and the phrasing it picked. -/
theorem Status_posts {σ : Type} (d : Deps) (n : Remote σ) (rad : radicle) (u : User) (r : Repo)
    (b : Pipeline) (w : σ) (patchID revisionID : String)
    (hpending : b.Status ≠ StatusPending) (hrunning : b.Status ≠ StatusRunning)
    (hpatch : b.AdditionalVariables.lookup "patch_id" = some patchID)
    (hrevision : b.AdditionalVariables.lookup "revision_id" = some revisionID) :
    ∃ icon text comment,
      comment = ⟨d.CreatePatchCommentType,
        Sprintf "Woodpecker pipeline #%v %s status: %s. %s \n - Details: %s"
          [.int b.ID, .str text, .str b.Status, .str icon, .str (d.GetPipelineStatusURL r b)],
        revisionID⟩
      ∧ Status d n rad u r b w =
        ⟨(n.AddProjectPatchComment ⟨rad.url, u.AccessToken⟩ r.ForgeRemoteID patchID comment w).1,
          rad,
          (n.AddProjectPatchComment ⟨rad.url, u.AccessToken⟩ r.ForgeRemoteID patchID comment w).2,
          [.AddProjectPatchComment ⟨rad.url, u.AccessToken⟩ r.ForgeRemoteID patchID comment]⟩
      ∧ (b.Status = StatusFailure ∨ b.Status = StatusKilled ∨ b.Status = StatusError ∨
          b.Status = StatusDeclined → icon = "❌" ∧ text = "completed with")
      ∧ (b.Status = StatusSuccess → icon = "✅" ∧ text = "completed with")
      ∧ (b.Status = StatusSkipped → icon = "↪️" ∧ text = "current")
      ∧ (b.Status ≠ StatusFailure → b.Status ≠ StatusKilled → b.Status ≠ StatusError →
          b.Status ≠ StatusDeclined → b.Status ≠ StatusSuccess → b.Status ≠ StatusSkipped →
          icon = "⏳" ∧ text = "current") := by
  have hprog : ¬ (b.Status = StatusPending ∨ b.Status = StatusRunning) := by
    rintro (h | h)
    · exact hpending h
    · exact hrunning h
  by_cases hfail : b.Status = StatusFailure ∨ b.Status = StatusKilled ∨ b.Status = StatusError ∨
      b.Status = StatusDeclined
  · refine ⟨"❌", "completed with", _, rfl, ?_, fun _ => ⟨rfl, rfl⟩, ?_, ?_, ?_⟩
    · simp only [Status, if_neg hprog, hpatch, hrevision, if_pos hfail, if_true]
    · intro hs; rw [hs] at hfail; revert hfail; decide
    · intro hs; rw [hs] at hfail; revert hfail; decide
    · intro h1 h2 h3 h4
      rcases hfail with h | h | h | h
      · exact absurd h h1
      · exact absurd h h2
      · exact absurd h h3
      · exact absurd h h4
  · by_cases hsucc : b.Status = StatusSuccess
    · refine ⟨"✅", "completed with", _, rfl, ?_, fun h => absurd h hfail, fun _ => ⟨rfl, rfl⟩,
        ?_, ?_⟩
      · simp only [Status, if_neg hprog, hpatch, hrevision, if_neg hfail, if_pos hsucc, if_true]
      · intro hs; rw [hs] at hsucc; revert hsucc; decide
      · intro _ _ _ _ h5; exact absurd hsucc h5
    · by_cases hskip : b.Status = StatusSkipped
      · refine ⟨"↪️", "current", _, rfl, ?_, fun h => absurd h hfail, fun h => absurd h hsucc,
          fun _ => ⟨rfl, rfl⟩, ?_⟩
        · simp only [Status, if_neg hprog, hpatch, hrevision, if_neg hfail, if_neg hsucc,
            if_pos hskip]
          rfl
        · intro _ _ _ _ _ h6; exact absurd hskip h6
      · refine ⟨"⏳", "current", _, rfl, ?_, fun h => absurd h hfail, fun h => absurd h hsucc,
          fun h => absurd h hskip, fun _ _ _ _ _ _ => ⟨rfl, rfl⟩⟩
        simp only [Status, if_neg hprog, hpatch, hrevision, if_neg hfail, if_neg hsucc,
          if_neg hskip]
        rfl

/-- C5: `Status` posts a patch comment if and only if the pipeline status is neither pending nor
running and the additional variables hold both a `patch_id` and a `revision_id` entry.  Posting
means: it applies the node's `AddProjectPatchComment` once, to the client of the adapter URL and
the user's token, the repository, the patch identifier and a comment that carries the revision
identifier; it returns the error of that very call, hands on the node state that call left, and
makes no other call.  In every other case it makes no call, returns no error and leaves the
node as it was; so a pending or running pipeline is never commented, and neither is a pipeline
that misses one of the two identifiers. -/
theorem Status_comments_iff_finished_patch_pipeline {σ : Type} (d : Deps) (n : Remote σ)
    (rad : radicle) (u : User) (r : Repo) (b : Pipeline) (w : σ) :
    ((b.Status ≠ StatusPending ∧ b.Status ≠ StatusRunning ∧
          (b.AdditionalVariables.lookup "patch_id").isSome ∧
          (b.AdditionalVariables.lookup "revision_id").isSome)
      ↔ ∃ patchID revisionID icon text,
          b.AdditionalVariables.lookup "patch_id" = some patchID
          ∧ b.AdditionalVariables.lookup "revision_id" = some revisionID
          ∧ Status d n rad u r b w =
            ⟨(n.AddProjectPatchComment ⟨rad.url, u.AccessToken⟩ r.ForgeRemoteID patchID
                ⟨d.CreatePatchCommentType,
                  Sprintf "Woodpecker pipeline #%v %s status: %s. %s \n - Details: %s"
                    [.int b.ID, .str text, .str b.Status, .str icon,
                      .str (d.GetPipelineStatusURL r b)],
                  revisionID⟩ w).1,
              rad,
              (n.AddProjectPatchComment ⟨rad.url, u.AccessToken⟩ r.ForgeRemoteID patchID
                ⟨d.CreatePatchCommentType,
                  Sprintf "Woodpecker pipeline #%v %s status: %s. %s \n - Details: %s"
                    [.int b.ID, .str text, .str b.Status, .str icon,
                      .str (d.GetPipelineStatusURL r b)],
                  revisionID⟩ w).2,
              [.AddProjectPatchComment ⟨rad.url, u.AccessToken⟩ r.ForgeRemoteID patchID
                ⟨d.CreatePatchCommentType,
                  Sprintf "Woodpecker pipeline #%v %s status: %s. %s \n - Details: %s"
                    [.int b.ID, .str text, .str b.Status, .str icon,
                      .str (d.GetPipelineStatusURL r b)],
                  revisionID⟩]⟩)
    ∧ ((∃ c repoID patchID comment,
        (Status d n rad u r b w).calls = [.AddProjectPatchComment c repoID patchID comment])
      ↔ (b.Status ≠ StatusPending ∧ b.Status ≠ StatusRunning ∧
          (b.AdditionalVariables.lookup "patch_id").isSome ∧
          (b.AdditionalVariables.lookup "revision_id").isSome))
    ∧ (¬ (b.Status ≠ StatusPending ∧ b.Status ≠ StatusRunning ∧
          (b.AdditionalVariables.lookup "patch_id").isSome ∧
          (b.AdditionalVariables.lookup "revision_id").isSome) →
        (Status d n rad u r b w).calls = [] ∧ (Status d n rad u r b w).result = none ∧
          (Status d n rad u r b w).node = w)
    ∧ (b.Status = StatusPending ∨ b.Status = StatusRunning →
        (Status d n rad u r b w).calls = [] ∧ (Status d n rad u r b w).result = none ∧
          (Status d n rad u r b w).node = w)
    ∧ (b.AdditionalVariables.lookup "patch_id" = none ∨
          b.AdditionalVariables.lookup "revision_id" = none →
        (Status d n rad u r b w).calls = [] ∧ (Status d n rad u r b w).result = none ∧
          (Status d n rad u r b w).node = w) := by
  have hsilent : ¬ (b.Status ≠ StatusPending ∧ b.Status ≠ StatusRunning ∧
      (b.AdditionalVariables.lookup "patch_id").isSome ∧
      (b.AdditionalVariables.lookup "revision_id").isSome) →
      Status d n rad u r b w = ⟨none, rad, w, []⟩ := by
    intro hnot
    apply Status_silent
    by_contra hall
    push_neg at hall
    obtain ⟨h1, h2, h3, h4⟩ := hall
    exact hnot ⟨h1, h2, Option.ne_none_iff_isSome.mp h3, Option.ne_none_iff_isSome.mp h4⟩
  refine ⟨⟨?_, ?_⟩, ⟨?_, ?_⟩, ?_, ?_, ?_⟩
  · rintro ⟨h1, h2, h3, h4⟩
    obtain ⟨patchID, hp⟩ := Option.isSome_iff_exists.mp h3
    obtain ⟨revisionID, hrv⟩ := Option.isSome_iff_exists.mp h4
    obtain ⟨icon, text, comment, hcomment, hst, _⟩ :=
      Status_posts d n rad u r b w patchID revisionID h1 h2 hp hrv
    subst hcomment
    exact ⟨patchID, revisionID, icon, text, hp, hrv, hst⟩
  · rintro ⟨patchID, revisionID, icon, text, _, _, hst⟩
    by_contra hnot
    rw [hsilent hnot] at hst
    have hcalls := congrArg Outcome.calls hst
    cases hcalls
  · rintro ⟨c, repoID, patchID, comment, hcalls⟩
    by_contra hnot
    rw [hsilent hnot] at hcalls
    cases hcalls
  · rintro ⟨h1, h2, h3, h4⟩
    obtain ⟨patchID, hp⟩ := Option.isSome_iff_exists.mp h3
    obtain ⟨revisionID, hrv⟩ := Option.isSome_iff_exists.mp h4
    obtain ⟨icon, text, comment, _, hst, _⟩ :=
      Status_posts d n rad u r b w patchID revisionID h1 h2 hp hrv
    exact ⟨_, _, _, comment, by rw [hst]⟩
  · intro hnot
    rw [hsilent hnot]
    exact ⟨rfl, rfl, rfl⟩
  · intro hprog
    rw [Status_silent d n rad u r b w (by tauto)]
    exact ⟨rfl, rfl, rfl⟩
  · intro hmiss
    rw [Status_silent d n rad u r b w (by tauto)]
    exact ⟨rfl, rfl, rfl⟩

/-- C5, at the sample node, which accepts every comment and counts the calls it served: for a
successful pipeline with both identifiers `Status` returns what the node's
`AddProjectPatchComment` returned for the patch `"p1"` and a comment on the revision `"r1"`,
and the node has served one call; for the same pipeline still running nothing is called and
the node has served none. -/
theorem Status_comments_iff_finished_patch_pipeline_witness :
    (∃ comment,
        comment.Revision = "r1"
        ∧ (Status exampleDeps exampleRemote exampleRad ⟨"alice", "t0ken"⟩ ⟨"rad:z1", "main"⟩
            ⟨7, "success", "c0ffee", [("patch_id", "p1"), ("revision_id", "r1")]⟩ 0).result =
          (exampleRemote.AddProjectPatchComment ⟨"https://node.example", "t0ken"⟩ "rad:z1" "p1"
            comment 0).1
        ∧ (Status exampleDeps exampleRemote exampleRad ⟨"alice", "t0ken"⟩ ⟨"rad:z1", "main"⟩
            ⟨7, "success", "c0ffee", [("patch_id", "p1"), ("revision_id", "r1")]⟩ 0).calls =
          [.AddProjectPatchComment ⟨"https://node.example", "t0ken"⟩ "rad:z1" "p1" comment]
        ∧ (Status exampleDeps exampleRemote exampleRad ⟨"alice", "t0ken"⟩ ⟨"rad:z1", "main"⟩
            ⟨7, "success", "c0ffee", [("patch_id", "p1"), ("revision_id", "r1")]⟩ 0).node = 1)
    ∧ (Status exampleDeps exampleRemote exampleRad ⟨"alice", "t0ken"⟩ ⟨"rad:z1", "main"⟩
        ⟨7, "running", "c0ffee", [("patch_id", "p1"), ("revision_id", "r1")]⟩ 0).calls = []
    ∧ (Status exampleDeps exampleRemote exampleRad ⟨"alice", "t0ken"⟩ ⟨"rad:z1", "main"⟩
        ⟨7, "running", "c0ffee", [("patch_id", "p1"), ("revision_id", "r1")]⟩ 0).result = none
    ∧ (Status exampleDeps exampleRemote exampleRad ⟨"alice", "t0ken"⟩ ⟨"rad:z1", "main"⟩
        ⟨7, "running", "c0ffee", [("patch_id", "p1"), ("revision_id", "r1")]⟩ 0).node = 0 := by
  refine ⟨?_, (Status_comments_iff_finished_patch_pipeline exampleDeps exampleRemote exampleRad
    ⟨"alice", "t0ken"⟩ ⟨"rad:z1", "main"⟩
    ⟨7, "running", "c0ffee", [("patch_id", "p1"), ("revision_id", "r1")]⟩ 0).2.2.2.1
    (Or.inr (by decide))⟩
  obtain ⟨patchID, revisionID, icon, text, hp, hrv, hst⟩ :=
    (Status_comments_iff_finished_patch_pipeline exampleDeps exampleRemote exampleRad
      ⟨"alice", "t0ken"⟩ ⟨"rad:z1", "main"⟩
      ⟨7, "success", "c0ffee", [("patch_id", "p1"), ("revision_id", "r1")]⟩ 0).1.mp
      ⟨by decide, by decide, by decide, by decide⟩
  have hp1 : patchID = "p1" := by
    have h : some "p1" = some patchID := hp
    injection h with h
    exact h.symm
  have hr1 : revisionID = "r1" := by
    have h : some "r1" = some revisionID := hrv
    injection h with h
    exact h.symm
  subst hp1
  subst hr1
  rw [hst]
  exact ⟨_, rfl, rfl, rfl, rfl⟩

/-- C6: in the comment `Status` posts, icon and phrasing are determined by the status: failure,
killed, error and declined give ❌ with the phrasing "completed with"; success gives ✅ with
"completed with"; skipped gives ↪️, which is none of the other three icons, with "current"; any
other status gives ⏳ with "current".  The body of a success comment contains ✅ and the word
"completed", the body of a skipped comment contains ↪️ and the word "current". -/
theorem Status_icon_and_phrasing {σ : Type} (d : Deps) (n : Remote σ) (rad : radicle) (u : User)
    (r : Repo) (b : Pipeline) (w : σ) (patchID revisionID : String)
    (hpending : b.Status ≠ StatusPending) (hrunning : b.Status ≠ StatusRunning)
    (hpatch : b.AdditionalVariables.lookup "patch_id" = some patchID)
    (hrevision : b.AdditionalVariables.lookup "revision_id" = some revisionID) :
    ∃ icon text body,
      body = Sprintf "Woodpecker pipeline #%v %s status: %s. %s \n - Details: %s"
          [.int b.ID, .str text, .str b.Status, .str icon, .str (d.GetPipelineStatusURL r b)]
      ∧ (Status d n rad u r b w).calls =
        [.AddProjectPatchComment ⟨rad.url, u.AccessToken⟩ r.ForgeRemoteID patchID
          ⟨d.CreatePatchCommentType, body, revisionID⟩]
      ∧ (b.Status = StatusFailure ∨ b.Status = StatusKilled ∨ b.Status = StatusError ∨
          b.Status = StatusDeclined → icon = "❌" ∧ text = "completed with")
      ∧ (b.Status = StatusSuccess → icon = "✅" ∧ text = "completed with")
      ∧ (b.Status = StatusSkipped → icon = "↪️" ∧ text = "current")
      ∧ (b.Status ≠ StatusFailure → b.Status ≠ StatusKilled → b.Status ≠ StatusError →
          b.Status ≠ StatusDeclined → b.Status ≠ StatusSuccess → b.Status ≠ StatusSkipped →
          icon = "⏳" ∧ text = "current")
      ∧ ("↪️" ≠ "❌" ∧ "↪️" ≠ "✅" ∧ "↪️" ≠ "⏳")
      ∧ (b.Status = StatusSuccess → Contains body "✅" ∧ Contains body "completed")
      ∧ (b.Status = StatusSkipped → Contains body "↪️" ∧ Contains body "current") := by
  obtain ⟨icon, text, comment, hcomment, hst, hfail, hsucc, hskip, hother⟩ :=
    Status_posts d n rad u r b w patchID revisionID hpending hrunning hpatch hrevision
  refine ⟨icon, text, _, rfl, ?_, hfail, hsucc, hskip, hother, by decide, ?_, ?_⟩
  · rw [hst, hcomment]
  · intro hs
    obtain ⟨hicon, htext⟩ := hsucc hs
    rw [Sprintf_comment, hicon, htext]
    constructor
    · exact ⟨("Woodpecker pipeline #" ++ toString b.ID ++ " completed with status: " ++
          b.Status ++ ". ").data, (" \n - Details: " ++ d.GetPipelineStatusURL r b).data,
        by simp⟩
    · exact ⟨("Woodpecker pipeline #" ++ toString b.ID ++ " ").data,
        (" with status: " ++ b.Status ++ ". ✅ \n - Details: " ++
          d.GetPipelineStatusURL r b).data, by simp⟩
  · intro hs
    obtain ⟨hicon, htext⟩ := hskip hs
    rw [Sprintf_comment, hicon, htext]
    constructor
    · exact ⟨("Woodpecker pipeline #" ++ toString b.ID ++ " current status: " ++
          b.Status ++ ". ").data, (" \n - Details: " ++ d.GetPipelineStatusURL r b).data,
        by simp⟩
    · exact ⟨("Woodpecker pipeline #" ++ toString b.ID ++ " ").data,
        (" status: " ++ b.Status ++ ". ↪️ \n - Details: " ++
          d.GetPipelineStatusURL r b).data, by simp⟩

/-- C6, at a sample successful pipeline of a patch: the posted body contains ✅ and the word
"completed". -/
theorem Status_icon_and_phrasing_witness :
    ∃ body,
      (Status exampleDeps exampleRemote exampleRad ⟨"alice", "t0ken"⟩ ⟨"rad:z1", "main"⟩
          ⟨7, "success", "c0ffee", [("patch_id", "p1"), ("revision_id", "r1")]⟩ 0).calls =
        [.AddProjectPatchComment ⟨"https://node.example", "t0ken"⟩ "rad:z1" "p1"
          ⟨"revision.comment", body, "r1"⟩]
      ∧ Contains body "✅" ∧ Contains body "completed" := by
  obtain ⟨_, _, body, _, hcalls, _, _, _, _, _, hsuccess, _⟩ :=
    Status_icon_and_phrasing exampleDeps exampleRemote exampleRad ⟨"alice", "t0ken"⟩
      ⟨"rad:z1", "main"⟩ ⟨7, "success", "c0ffee", [("patch_id", "p1"), ("revision_id", "r1")]⟩ 0
      "p1" "r1" (by decide) (by decide) (by decide) (by decide)
  exact ⟨body, hcalls, hsuccess (by decide)⟩

/-- C10, as stated, fails: the body posted for a sample successful pipeline holds a line
break, the one written in the format between the icon and the details. -/
theorem Status_body_line_break_counterexample :
    (Status exampleDeps exampleRemote exampleRad ⟨"alice", "t0ken"⟩ ⟨"rad:z1", "main"⟩
          ⟨7, "success", "c0ffee", [("patch_id", "p1"), ("revision_id", "r1")]⟩ 0).calls =
        [.AddProjectPatchComment ⟨"https://node.example", "t0ken"⟩ "rad:z1" "p1"
          ⟨"revision.comment",
            "Woodpecker pipeline #7 completed with status: success. ✅ \n - Details: https://ci.example/repos/1/pipeline/7",
            "r1"⟩]
    ∧ '\n' ∈ ("Woodpecker pipeline #7 completed with status: success. ✅ \n - Details: https://ci.example/repos/1/pipeline/7").data := by
  decide

/-- C10, amended: the body of the comment `Status` posts is the text "Woodpecker pipeline #",
the pipeline ID, a blank, the phrasing, " status: ", the status name, ". ", the icon, a blank, a
line break, and " - Details: " followed by the details URL; so it embeds the five values in
that order and it is not a single line, the format putting a line break between the icon and
the details. -/
theorem Status_body_layout {σ : Type} (d : Deps) (n : Remote σ) (rad : radicle) (u : User)
    (r : Repo) (b : Pipeline) (w : σ) (patchID revisionID : String)
    (hpending : b.Status ≠ StatusPending) (hrunning : b.Status ≠ StatusRunning)
    (hpatch : b.AdditionalVariables.lookup "patch_id" = some patchID)
    (hrevision : b.AdditionalVariables.lookup "revision_id" = some revisionID) :
    ∃ icon text body,
      (Status d n rad u r b w).calls =
        [.AddProjectPatchComment ⟨rad.url, u.AccessToken⟩ r.ForgeRemoteID patchID
          ⟨d.CreatePatchCommentType, body, revisionID⟩]
      ∧ body = "Woodpecker pipeline #" ++ toString b.ID ++ " " ++ text ++ " status: " ++
          b.Status ++ ". " ++ icon ++ " \n - Details: " ++ d.GetPipelineStatusURL r b
      ∧ (text = "completed with" ∨ text = "current")
      ∧ (icon = "❌" ∨ icon = "✅" ∨ icon = "↪️" ∨ icon = "⏳")
      ∧ '\n' ∈ body.data := by
  obtain ⟨icon, text, comment, hcomment, hst, hfail, hsucc, hskip, hother⟩ :=
    Status_posts d n rad u r b w patchID revisionID hpending hrunning hpatch hrevision
  refine ⟨icon, text, _, ?_, Sprintf_comment _ _ _ _ _, ?_, ?_, ?_⟩
  · rw [hst, hcomment]
  · by_cases h1 : b.Status = StatusFailure ∨ b.Status = StatusKilled ∨ b.Status = StatusError ∨
        b.Status = StatusDeclined
    · exact Or.inl (hfail h1).2
    · by_cases h2 : b.Status = StatusSuccess
      · exact Or.inl (hsucc h2).2
      · by_cases h3 : b.Status = StatusSkipped
        · exact Or.inr (hskip h3).2
        · push_neg at h1
          exact Or.inr (hother h1.1 h1.2.1 h1.2.2.1 h1.2.2.2 h2 h3).2
  · by_cases h1 : b.Status = StatusFailure ∨ b.Status = StatusKilled ∨ b.Status = StatusError ∨
        b.Status = StatusDeclined
    · exact Or.inl (hfail h1).1
    · by_cases h2 : b.Status = StatusSuccess
      · exact Or.inr (Or.inl (hsucc h2).1)
      · by_cases h3 : b.Status = StatusSkipped
        · exact Or.inr (Or.inr (Or.inl (hskip h3).1))
        · push_neg at h1
          exact Or.inr (Or.inr (Or.inr (hother h1.1 h1.2.1 h1.2.2.1 h1.2.2.2 h2 h3).1))
  · rw [Sprintf_comment]
    simp

/-- C10, amended, at a sample skipped pipeline of a patch. -/
theorem Status_body_layout_witness :
    ∃ body,
      (Status exampleDeps exampleRemote exampleRad ⟨"alice", "t0ken"⟩ ⟨"rad:z1", "main"⟩
          ⟨7, "skipped", "c0ffee", [("patch_id", "p1"), ("revision_id", "r1")]⟩ 0).calls =
        [.AddProjectPatchComment ⟨"https://node.example", "t0ken"⟩ "rad:z1" "p1"
          ⟨"revision.comment", body, "r1"⟩]
      ∧ '\n' ∈ body.data := by
  obtain ⟨_, _, body, hcalls, _, _, _, hbreak⟩ :=
    Status_body_layout exampleDeps exampleRemote exampleRad ⟨"alice", "t0ken"⟩
      ⟨"rad:z1", "main"⟩ ⟨7, "skipped", "c0ffee", [("patch_id", "p1"), ("revision_id", "r1")]⟩ 0
      "p1" "r1" (by decide) (by decide) (by decide) (by decide)
  exact ⟨body, hcalls, hbreak⟩

/-! ## `Deactivate` -/

/-- C9: `Deactivate` looks the webhook up, drops the error of the lookup, and calls
`RemoveProjectWebhook` exactly once, with the handle the lookup returned (`none` when nothing
matched); replacing the lookup error by any other value changes nothing.  It returns an error,
"could not deactivate repository, " followed by the message of the removal error, exactly when
the removal returns an error.  So when removal of a missing handle succeeds, deactivating a
repository and URL without registration returns no error. -/
theorem Deactivate_tolerates_failed_lookup {σ : Type} (n : Remote σ) (rad : radicle) (u : User)
    (r : Repo) (link : String) (w : σ) :
    (Deactivate n rad u r link w).calls =
        [.GetProjectWebhook ⟨rad.url, u.AccessToken⟩ r.ForgeRemoteID link,
          .RemoveProjectWebhook ⟨rad.url, u.AccessToken⟩ r.ForgeRemoteID
            (n.GetProjectWebhook ⟨rad.url, u.AccessToken⟩ r.ForgeRemoteID link w).1.1]
    ∧ (∀ lookupErr : Option Error,
        Deactivate { n with GetProjectWebhook := fun c repoID l s =>
            (((n.GetProjectWebhook c repoID l s).1.1, lookupErr),
              (n.GetProjectWebhook c repoID l s).2) } rad u r link w =
          Deactivate n rad u r link w)
    ∧ ((Deactivate n rad u r link w).result = none ↔
        (n.RemoveProjectWebhook ⟨rad.url, u.AccessToken⟩ r.ForgeRemoteID
          (n.GetProjectWebhook ⟨rad.url, u.AccessToken⟩ r.ForgeRemoteID link w).1.1
          (n.GetProjectWebhook ⟨rad.url, u.AccessToken⟩ r.ForgeRemoteID link w).2).1 = none)
    ∧ (∀ e,
        (n.RemoveProjectWebhook ⟨rad.url, u.AccessToken⟩ r.ForgeRemoteID
          (n.GetProjectWebhook ⟨rad.url, u.AccessToken⟩ r.ForgeRemoteID link w).1.1
          (n.GetProjectWebhook ⟨rad.url, u.AccessToken⟩ r.ForgeRemoteID link w).2).1 = some e →
        (Deactivate n rad u r link w).result =
            some (.errorString ("could not deactivate repository, " ++ e.Error))
          ∧ "could not deactivate repository".data <+:
            ("could not deactivate repository, " ++ e.Error).data)
    ∧ ((n.GetProjectWebhook ⟨rad.url, u.AccessToken⟩ r.ForgeRemoteID link w).1.1 = none →
        (∀ c repoID s, (n.RemoveProjectWebhook c repoID none s).1 = none) →
        (Deactivate n rad u r link w).result = none) := by
  refine ⟨?_, fun _ => rfl, ?_, ?_, ?_⟩
  · simp only [Deactivate]
    split <;> rfl
  · simp only [Deactivate]
    split
    · rename_i e he
      simp [he]
    · rename_i he
      simp [he]
  · intro e he
    refine ⟨?_, ?_⟩
    · simp only [Deactivate, he]
    · exact ⟨(", " ++ e.Error).data, by simp⟩
  · intro hnone hnoop
    simp only [Deactivate, hnone, hnoop]

/-- C9, at the sample node, where the lookup fails with "webhook not found" and removal of a
missing handle succeeds. -/
theorem Deactivate_tolerates_failed_lookup_witness :
    (Deactivate exampleRemote exampleRad ⟨"alice", "t0ken"⟩ ⟨"rad:z1", "main"⟩
        "https://ci.example/hook" 0).result = none :=
  (Deactivate_tolerates_failed_lookup exampleRemote exampleRad ⟨"alice", "t0ken"⟩
    ⟨"rad:z1", "main"⟩ "https://ci.example/hook" 0).2.2.2.2 rfl (fun _ _ _ => rfl)

/-! ## `newRadicle` -/

/-- Removing one trailing slash leaves the empty string only for `""` and `"/"`. -/
theorem TrimSuffix_slash_eq_empty (s : String) :
    TrimSuffix s "/" = "" ↔ s = "" ∨ s = "/" := by
  cases s with
  | mk l =>
    by_cases hsuf : ['/'] <:+ l
    · obtain ⟨t, rfl⟩ := hsuf
      have htrim : TrimSuffix ⟨t ++ ['/']⟩ "/" = ⟨t⟩ := by
        simp [TrimSuffix, HasSuffix]
      rw [htrim]
      constructor
      · intro h
        have ht : t = [] := congrArg String.data h
        subst ht
        exact Or.inr rfl
      · rintro (h | h)
        · have := congrArg String.data h
          simp at this
        · have hd : t ++ ['/'] = ['/'] := congrArg String.data h
          have ht : t = [] := by
            have hlen := congrArg List.length hd
            simp at hlen
            exact hlen
          subst ht
          rfl
    · have htrim : TrimSuffix ⟨l⟩ "/" = ⟨l⟩ := by
        simp [TrimSuffix, HasSuffix, hsuf]
      rw [htrim]
      constructor
      · intro h; exact Or.inl h
      · rintro (h | h)
        · exact h
        · exfalso
          apply hsuf
          have hd : l = ['/'] := congrArg String.data h
          rw [hd]

/-- After one trailing slash is removed, a slash is left at the end only if there were two. -/
theorem HasSuffix_TrimSuffix_slash (s : String)
    (h : HasSuffix (TrimSuffix s "/") "/" = true) : HasSuffix s "//" = true := by
  cases s with
  | mk l =>
    by_cases hsuf : ['/'] <:+ l
    · obtain ⟨t, rfl⟩ := hsuf
      have htrim : TrimSuffix ⟨t ++ ['/']⟩ "/" = ⟨t⟩ := by
        simp [TrimSuffix, HasSuffix]
      rw [htrim] at h
      have ht : ['/'] <:+ t := by
        simpa [HasSuffix] using h
      obtain ⟨t2, rfl⟩ := ht
      simp [HasSuffix]
    · have htrim : TrimSuffix ⟨l⟩ "/" = ⟨l⟩ := by
        simp [TrimSuffix, HasSuffix, hsuf]
      rw [htrim] at h
      exfalso
      apply hsuf
      simp [HasSuffix] at h
      exact h

/-- When `newRadicle` succeeds and what it returns then. -/
theorem newRadicle_ok_iff (d : Deps) (opts : radicleOpts) (rad : radicle) :
    newRadicle d opts = .ok rad ↔
      (TrimSuffix opts.URL "/" ≠ "" ∧ d.urlParse (TrimSuffix opts.URL "/") = none ∧
        d.urlParse (TrimSuffix opts.WoodpeckerHostURL "/") = none ∧
        rad = ⟨TrimSuffix opts.URL "/", TrimSuffix opts.WoodpeckerHostURL "/", "", "", "",
          opts.HookSecret⟩) := by
  by_cases hlen : (TrimSuffix opts.URL "/").length = 0
  · have hempty := (length_eq_zero_iff _).mp hlen
    simp [newRadicle, hlen, hempty]
  · have hne : TrimSuffix opts.URL "/" ≠ "" := fun h => hlen ((length_eq_zero_iff _).mpr h)
    cases h1 : d.urlParse (TrimSuffix opts.URL "/") with
    | some e => simp [newRadicle, hlen, h1]
    | none =>
      cases h2 : d.urlParse (TrimSuffix opts.WoodpeckerHostURL "/") with
      | some e => simp [newRadicle, hlen, h1, h2]
      | none =>
        simp only [newRadicle, hlen, h1, h2, if_false]
        constructor
        · intro h
          injection h with h
          exact ⟨hne, trivial, trivial, h.symm⟩
        · rintro ⟨_, _, _, h⟩
          rw [h]

/-- C3, as stated, fails: with the node URL `"https://node.example//"` `newRadicle` succeeds
and the adapter holds `"https://node.example/"`, which ends with a slash. -/
theorem newRadicle_trailing_slash_counterexample :
    newRadicle exampleDeps ⟨"https://node.example//", "https://ci.example/", "s3cret"⟩ =
        .ok ⟨"https://node.example/", "https://ci.example", "", "", "", "s3cret"⟩
    ∧ HasSuffix "https://node.example/" "/" = true :=
  ⟨rfl, by decide⟩

/-- The check that follows the normalisation of `WOODPECKER_HOST_URL` reads the node URL: with
an empty `WOODPECKER_HOST_URL` `newRadicle` succeeds and the adapter holds an empty CI-server
URL. -/
theorem newRadicle_accepts_empty_host :
    newRadicle exampleDeps ⟨"https://node.example", "", "s3cret"⟩ =
      .ok ⟨"https://node.example", "", "", "", "", "s3cret"⟩ :=
  rfl

/-- C3, amended: when `newRadicle` succeeds, the adapter holds the configured node URL and the
configured CI-server URL, each with one trailing slash removed if it had one, so that a held URL
ends with a slash only when the configured value ended with two; the node URL it holds is
non-empty and both held URLs passed `url.Parse`.  A `RADICLE_URL` that is empty, or is just
`"/"`, makes `newRadicle` fail with "must provide a value for RADICLE_URL". -/
theorem newRadicle_normalises_urls (d : Deps) (opts : radicleOpts) :
    (∀ rad, newRadicle d opts = .ok rad →
        rad.url = TrimSuffix opts.URL "/"
        ∧ rad.woodpeckerHostUrl = TrimSuffix opts.WoodpeckerHostURL "/"
        ∧ rad.url ≠ ""
        ∧ (HasSuffix rad.url "/" = true → HasSuffix opts.URL "//" = true)
        ∧ (HasSuffix rad.woodpeckerHostUrl "/" = true →
            HasSuffix opts.WoodpeckerHostURL "//" = true)
        ∧ d.urlParse rad.url = none ∧ d.urlParse rad.woodpeckerHostUrl = none)
    ∧ (opts.URL = "" ∨ opts.URL = "/" →
        newRadicle d opts = .error (.errorString "must provide a value for RADICLE_URL")) := by
  constructor
  · intro rad hok
    obtain ⟨hne, h1, h2, hrad⟩ := (newRadicle_ok_iff d opts rad).mp hok
    subst hrad
    exact ⟨rfl, rfl, hne, HasSuffix_TrimSuffix_slash _, HasSuffix_TrimSuffix_slash _, h1, h2⟩
  · intro hmissing
    have hempty := (TrimSuffix_slash_eq_empty opts.URL).mpr hmissing
    simp [newRadicle, hempty]

/-- C3, amended, at sample options: the held node URL lost its single trailing slash and is
non-empty, and a `RADICLE_URL` of `"/"` is refused. -/
theorem newRadicle_normalises_urls_witness :
    (newRadicle exampleDeps ⟨"https://node.example/", "https://ci.example/", "s3cret"⟩ =
        .ok ⟨"https://node.example", "https://ci.example", "", "", "", "s3cret"⟩
      ∧ "https://node.example" = TrimSuffix "https://node.example/" "/"
      ∧ "https://node.example" ≠ "")
    ∧ newRadicle exampleDeps ⟨"/", "https://ci.example", "s3cret"⟩ =
        .error (.errorString "must provide a value for RADICLE_URL") :=
  have h := (newRadicle_normalises_urls exampleDeps
    ⟨"https://node.example/", "https://ci.example/", "s3cret"⟩).1
    ⟨"https://node.example", "https://ci.example", "", "", "", "s3cret"⟩ rfl
  ⟨⟨rfl, h.1, h.2.2.1⟩,
    (newRadicle_normalises_urls exampleDeps ⟨"/", "https://ci.example", "s3cret"⟩).2
      (Or.inr rfl)⟩

end RadicleAddon
